import Mathlib

set_option maxRecDepth 100000

/-!
Verification of the free-text response parser and score normalizer of
AbstractReviewAI (src/main.py).  Python strings are modelled as lists of
characters (`Str`); the JSON values that `json.loads` can place into the
checklist-score mapping are modelled by `JVal`, and Python dicts by
insertion-ordered association lists (`Dict`).  The external JSON parser
(`json.loads`, standard library, not repository code) is a parameter
`jloads`; a result of `none` models a raised `JSONDecodeError`.
-/

/-- Python strings as sequences of code points. -/
abbrev Str := List Char

/-- The whitespace characters stripped by Python `str.strip()` (ASCII range). -/
def isSpace (c : Char) : Bool :=
  c == ' ' || c == '\t' || c == '\n' || c == '\r' || c == '\x0b' || c == '\x0c'

/-- Python `str.lstrip()`. -/
def lstrip (s : Str) : Str := s.dropWhile isSpace

/-- Python `str.rstrip()`. -/
def rstrip (s : Str) : Str := (s.reverse.dropWhile isSpace).reverse

/-- Python `str.strip()`. -/
def strip (s : Str) : Str := rstrip (lstrip s)

/-- Python `str.upper()` (ASCII; header matching only involves ASCII). -/
def upper (s : Str) : Str := s.map Char.toUpper

/-- Python `str.lower()`. -/
def lower (s : Str) : Str := s.map Char.toLower

/-- Python `str.find(pat)`: index of the first occurrence, `none` for -1. -/
def findSub (pat : Str) : Str → Option Nat
  | [] => if pat.isEmpty then some 0 else none
  | c :: rest =>
    if pat.isPrefixOf (c :: rest) then some 0 else (findSub pat rest).map (· + 1)

/-- Python `str.rfind(c)` for a single character. -/
def rfindChar (c : Char) (s : Str) : Option Nat :=
  (findSub [c] s.reverse).map (fun j => s.length - 1 - j)

/-- Python pySlice `s[a:b]` for non-negative indices. -/
def pySlice (s : Str) (a b : Nat) : Str := (s.drop a).take (b - a)

/-- Python pySlice `s[a:]`. -/
def pySliceFrom (s : Str) (a : Nat) : Str := s.drop a

/-- Python `s.split(sep)` for a one-character separator. -/
def splitOnChar (c : Char) : Str → List Str
  | [] => [[]]
  | x :: xs =>
    if x == c then [] :: splitOnChar c xs
    else
      match splitOnChar c xs with
      | [] => [[x]]
      | h :: t => (x :: h) :: t

/-- Python `pat in s` substring test. -/
def containsSub (pat s : Str) : Bool := (findSub pat s).isSome

/-- Accumulator for `pySplit`. -/
def pySplitAux (acc : Str) : Str → List Str
  | [] => if acc.isEmpty then [] else [acc.reverse]
  | c :: rest =>
    if isSpace c then
      if acc.isEmpty then pySplitAux [] rest else acc.reverse :: pySplitAux [] rest
    else pySplitAux (c :: acc) rest

/-- Python `s.split()` with no arguments: maximal runs of non-whitespace. -/
def pySplit (s : Str) : List Str := pySplitAux [] s

/-- Python `' '.join(parts)`. -/
def joinSpace : List Str → Str
  | [] => []
  | [x] => x
  | x :: y :: xs => x ++ ' ' :: joinSpace (y :: xs)

/-- JSON values that can appear in the parsed checklist-score mapping. -/
inductive JVal where
  | num (n : Int)
  | str (s : String)
deriving DecidableEq

/-- Python dicts with string keys, as insertion-ordered association lists
(keys are unique in every dict the program builds). -/
abbrev Dict := List (String × JVal)

/-- Python `k in d`. -/
def dictContains (d : Dict) (k : String) : Bool := d.any (fun p => p.1 == k)

/-- Python `d[k]` (as an option; never `none` when `dictContains` holds). -/
def dictGet (d : Dict) (k : String) : Option JVal :=
  (d.find? (fun p => p.1 == k)).map (·.2)

/-- Python `d[k] = v`: overwrite the entry if the key is present, else append. -/
def dictSet (d : Dict) (k : String) (v : JVal) : Dict :=
  match d with
  | [] => [(k, v)]
  | p :: t => if p.1 == k then (k, v) :: t else p :: dictSet t k v

/-- `FALLBACK_REVIEW` (src/main.py lines 18-23). -/
def FALLBACK_REVIEW : List Str :=
  [ "Abstract provides a good overview but could be more concise.".data,
    "Consider adding more specific methodology details.".data,
    "Results section should highlight key findings more clearly.".data,
    "Conclusion could better articulate the study\x27s contributions.".data ]

/-- Scanner for the citation-removal `re.sub`: `none` while scanning outside a
candidate citation; `some buf` holds (reversed) the characters consumed since
an as yet unclosed left citation bracket, dropped when the matching right
bracket arrives and re-emitted verbatim if the text ends without one (the
pattern has no match at that bracket, since the character class excludes the
right bracket and none follows). -/
def removeCitationsAux : Option Str → Str → Str
  | none, [] => []
  | some buf, [] => buf.reverse
  | none, c :: rest =>
    if c == '【' then removeCitationsAux (some [c]) rest
    else c :: removeCitationsAux none rest
  | some buf, c :: rest =>
    if c == '】' then removeCitationsAux none rest
    else removeCitationsAux (some (c :: buf)) rest

/-- `re.sub` of the citation pattern (a left citation bracket, characters
other than the right citation bracket, then the right citation bracket) by
the empty string, as in `clean_markdown` (src/main.py line 85). -/
def removeCitations (s : Str) : Str := removeCitationsAux none s

/-- Removal of a leading run of hyphen, asterisk, plus and whitespace
characters (src/main.py line 86). -/
def stripLeadMark (s : Str) : Str :=
  s.dropWhile (fun c => c == '-' || c == '*' || c == '+' || isSpace c)

/-- Whether no character of `s` is a newline (the dot of the emphasis patterns
does not match newlines). -/
def noNewline (s : Str) : Bool := s.all (fun c => c != '\n')

/-- The double-asterisk emphasis rewrite (src/main.py line 87).  After
`stripLeadMark` its input never starts with an asterisk, so it can only fire
on inputs that do not arise inside `clean_markdown`. -/
def stripBold (s : Str) : Str :=
  if 5 ≤ s.length && s.take 2 == ['*', '*'] && s.drop (s.length - 2) == ['*', '*']
      && noNewline (pySlice s 2 (s.length - 2))
  then pySlice s 2 (s.length - 2) else s

/-- The single-asterisk emphasis rewrite (src/main.py line 88). -/
def stripItalic (s : Str) : Str :=
  if 3 ≤ s.length && s.take 1 == ['*'] && s.drop (s.length - 1) == ['*']
      && noNewline (pySlice s 1 (s.length - 1))
  then pySlice s 1 (s.length - 1) else s

/-- `clean_markdown` (src/main.py lines 82-89). -/
def clean_markdown (s : Str) : Str :=
  strip (stripItalic (stripBold (stripLeadMark (removeCitations (strip s)))))

/-- `clamp_words` (src/main.py lines 91-96). -/
def clamp_words (s : Str) (maxWords : Nat) : Str :=
  if (pySplit s).length ≤ maxWords then s else joinSpace ((pySplit s).take maxWords)

/-- The four section headers searched for in the upper-cased text. -/
def hREVIEW : Str := "REVIEW COMMENTS".data

/-- Header of the checklist-score section. -/
def hSCORES : Str := "CHECKLIST SCORES".data

/-- Header of the corrected-abstract section. -/
def hCORRECTED : Str := "CORRECTED ABSTRACT".data

/-- Header of the improvement-summary section. -/
def hIMPROVEMENT : Str := "IMPROVEMENT SUMMARY".data

/-- `line.startswith(('-', '•', '*'))` (src/main.py line 445). -/
def bulletStart (l : Str) : Bool :=
  match l with
  | [] => false
  | c :: _ => c == '-' || c == '•' || c == '*'

/-- Removal of a leading run of bullet and whitespace characters, the
`re.sub` on src/main.py lines 447 and 509. -/
def stripBullet (l : Str) : Str :=
  l.dropWhile (fun c => c == '-' || c == '•' || c == '*' || isSpace c)

/-- `re.match` of one-or-more digits followed by a dot (src/main.py line 450). -/
def numberedStart (l : Str) : Bool :=
  !(l.takeWhile Char.isDigit).isEmpty
    && (l.drop (l.takeWhile Char.isDigit).length).take 1 == ['.']

/-- `re.sub` removing the numeric-list marker and following spaces
(src/main.py line 452). -/
def stripNumber (l : Str) : Str :=
  if numberedStart l
  then (l.drop ((l.takeWhile Char.isDigit).length + 1)).dropWhile isSpace
  else l

/-- One iteration of the comment-collection loop (src/main.py lines 442-454):
the comment contributed by one raw line of the review section, if any. -/
def commentOfLine (rawLine : Str) : Option Str :=
  if bulletStart (strip rawLine) then
    if !(stripBullet (strip rawLine)).isEmpty
        && decide (10 < (stripBullet (strip rawLine)).length)
    then some (stripBullet (strip rawLine)) else none
  else if numberedStart (strip rawLine) then
    if !(stripNumber (strip rawLine)).isEmpty
        && decide (10 < (stripNumber (strip rawLine)).length)
    then some (stripNumber (strip rawLine)) else none
  else none

/-- The comments collected from the review section text
(src/main.py lines 438-454). -/
def extractComments (reviewText : Str) : List Str :=
  (splitOnChar '\n' reviewText).filterMap commentOfLine

/-- The review-comment field of `parse_assistant_output`
(src/main.py lines 437-454): produced only when both the review and the
scores header occur, from the pySlice between their offsets. -/
def parseReviewComments (text : Str) : List Str :=
  match findSub hREVIEW (upper text), findSub hSCORES (upper text) with
  | some r, some sc => extractComments (pySlice text r sc)
  | _, _ => []

/-- The scores-section text of `parse_assistant_output`
(src/main.py lines 456-462). -/
def parseScoresText (text : Str) : Option Str :=
  match findSub hSCORES (upper text), findSub hCORRECTED (upper text),
      findSub hIMPROVEMENT (upper text) with
  | some sc, some co, _ => some (pySlice text sc co)
  | some sc, none, some im => some (pySlice text sc im)
  | some sc, none, none => some (pySliceFrom text sc)
  | none, _, _ => none

/-- The checklist-score field of `parse_assistant_output`
(src/main.py lines 464-473): the substring between the first opening brace
and the last closing brace of the scores text is handed to `jloads`;
a parse failure (or an absent/empty brace range) leaves the field empty. -/
def parseChecklistScores (jloads : Str → Option Dict) (text : Str) : Dict :=
  match parseScoresText text with
  | none => []
  | some st =>
    match findSub ['\x7b'] st, rfindChar '\x7d' st with
    | some js, some je =>
      if js < je + 1 then (jloads (pySlice st js (je + 1))).getD [] else []
    | _, _ => []

/-- The loop collecting the stripped non-blank lines after the header line
(src/main.py lines 483-491 and 500-511 share this shape). -/
def collectAfterHeader (header : Str) : Bool → List Str → List Str
  | _, [] => []
  | hp, l :: ls =>
    if header.isPrefixOf (strip (upper l)) then collectAfterHeader header true ls
    else if hp && !(strip l).isEmpty then strip l :: collectAfterHeader header hp ls
    else collectAfterHeader header hp ls

/-- The corrected-abstract field of `parse_assistant_output`
(src/main.py lines 475-494). -/
def parseCorrectedAbstract (text : Str) : Str :=
  match findSub hCORRECTED (upper text), findSub hIMPROVEMENT (upper text) with
  | some co, some im =>
    joinSpace (collectAfterHeader hCORRECTED false (splitOnChar '\n' (pySlice text co im)))
  | some co, none =>
    joinSpace (collectAfterHeader hCORRECTED false (splitOnChar '\n' (pySliceFrom text co)))
  | none, _ => []

/-- The summary-collection loop (src/main.py lines 500-511): like
`collectAfterHeader` but with bullet markers stripped from each kept line. -/
def collectSummaryLines : Bool → List Str → List Str
  | _, [] => []
  | hp, l :: ls =>
    if hIMPROVEMENT.isPrefixOf (strip (upper l)) then collectSummaryLines true ls
    else if hp && !(strip l).isEmpty then
      if !(stripBullet (strip l)).isEmpty
      then stripBullet (strip l) :: collectSummaryLines hp ls
      else collectSummaryLines hp ls
    else collectSummaryLines hp ls

/-- The improvement-summary field of `parse_assistant_output`
(src/main.py lines 496-514). -/
def parseImprovementSummary (text : Str) : Str :=
  match findSub hIMPROVEMENT (upper text) with
  | none => []
  | some im => joinSpace (collectSummaryLines false (splitOnChar '\n' (pySliceFrom text im)))

/-- The intermediate record built by `parse_assistant_output`
(src/main.py lines 421-426). -/
structure Parsed where
  review_comments : List Str
  checklist_scores : Dict
  corrected_abstract : Str
  improvement_summary : Str
deriving DecidableEq

/-- `parse_assistant_output` (src/main.py lines 419-516).  `jloads` models
the standard-library `json.loads`, with `none` for a raised decode error. -/
def parse_assistant_output (jloads : Str → Option Dict) (text : Str) : Parsed :=
  { review_comments := parseReviewComments text,
    checklist_scores := parseChecklistScores jloads text,
    corrected_abstract := parseCorrectedAbstract text,
    improvement_summary := parseImprovementSummary text }

/-- The canonical record built by `validate_and_fill`
(src/main.py lines 99-182). -/
structure Canonical where
  original_abstract : Str
  custom_commands : Str
  review_comments : List Str
  checklist_scores : Dict
  corrected_abstract : Str
  improvement_summary : Str
deriving DecidableEq

/-- `expected_categories` (src/main.py lines 121-122). -/
def expected_categories : List String :=
  ["length", "keywords", "gist", "consistency", "inclusion",
   "checklist_completeness", "conciseness"]

/-- `mapping_rules` (src/main.py lines 133-141). -/
def mapping_rules : List (String × List String) :=
  [("length", ["length", "word_count"]),
   ("keywords", ["keywords", "relevance", "subject_relevance"]),
   ("gist", ["gist", "essence", "technical_accuracy", "scientific_rigor"]),
   ("consistency", ["consistency", "consistency_with_article_content", "alignment"]),
   ("inclusion", ["inclusion", "completeness", "data_inclusion"]),
   ("checklist_completeness", ["checklist_completeness", "completeness", "structure"]),
   ("conciseness", ["conciseness", "clarity", "brevity"])]

/-- The alias list of a canonical category (empty for unknown categories,
matching the `expected_cat in mapping_rules` guard on src/main.py line 147). -/
def aliasesFor (c : String) : List String :=
  match mapping_rules.find? (fun p => p.1 == c) with
  | some p => p.2
  | none => []

/-- The `defaults` table (src/main.py lines 157-166), with the `.get` fallback
of 70 for unknown categories; `article` is the truthiness of
`article_content`. -/
def defaults (article : Bool) (c : String) : Int :=
  if c == "length" then 85
  else if c == "keywords" then 90
  else if c == "gist" then 90
  else if c == "consistency" then (if article then 98 else 75)
  else if c == "inclusion" then 85
  else if c == "checklist_completeness" then 85
  else if c == "conciseness" then 90
  else 70

/-- One iteration of the mapping loop (src/main.py lines 144-166): the value
assigned to one expected category. -/
def reconcileOne (agent : Dict) (article : Bool) (c : String) : JVal :=
  match (aliasesFor c).findSome? (fun k => dictGet agent k) with
  | some v => v
  | none => JVal.num (defaults article c)

/-- The score-reconciliation step (src/main.py lines 120-168): pass the agent
mapping through when it contains every expected category, otherwise build the
mapped scores category by category. -/
def reconcileScores (agent : Dict) (article : Bool) : Dict :=
  if expected_categories.all (fun c => dictContains agent c) then agent
  else expected_categories.map (fun c => (c, reconcileOne agent article c))

/-- `off_topic_keywords` (src/main.py lines 171-172). -/
def off_topic_keywords : List Str :=
  [ "off-topic".data, "different topic".data, "unrelated".data, "mismatch".data,
    "inconsistent".data, "photonics".data, "optics".data, "waveguide".data ]

/-- The off-topic scan (src/main.py lines 173-174) over the record's
review-comment list. -/
def offTopicTriggered (comments : List Str) : Bool :=
  off_topic_keywords.any (fun k => containsSub k (lower (joinSpace comments)))

/-- The comment-cleaning list comprehension (src/main.py line 112). -/
def cleanComments (raw : List Str) : List Str :=
  (raw.filter (fun s => !s.isEmpty && !(strip s).isEmpty)).map
    (fun s => clamp_words (clean_markdown s) 50)

/-- The comment-count policy (src/main.py lines 113-116). -/
def finalComments (raw : List Str) : List Str :=
  if (cleanComments raw).length < 2 then FALLBACK_REVIEW
  else (cleanComments raw).take 10

/-- Reconciliation followed by the off-topic consistency override
(src/main.py lines 120-176). -/
def finalScores (agent : Dict) (article : Bool) (comments : List Str) : Dict :=
  if offTopicTriggered comments
  then dictSet (reconcileScores agent article) "consistency" (JVal.num 0)
  else reconcileScores agent article

/-- The corrected-abstract default and sanity floor
(src/main.py lines 106 and 178-180). -/
def finalCorrected (cand orig : Str) : Str :=
  if (pySplit (strip (if cand.isEmpty then orig else cand))).length < 30 then orig
  else strip (if cand.isEmpty then orig else cand)

/-- The default improvement-summary sentence (src/main.py lines 107-108). -/
def default_improvement : Str :=
  "Abstract has been reviewed and improved for clarity, completeness, and academic standards.".data

/-- Truthiness of the `article_content` argument. -/
def truthyStr : Option Str → Bool
  | none => false
  | some s => !s.isEmpty

/-- `validate_and_fill` (src/main.py lines 99-182). -/
def validate_and_fill (parsed : Parsed) (original_abstract : Str)
    (custom_commands : Str) (article_content : Option Str) : Canonical :=
  { original_abstract := strip original_abstract,
    custom_commands := strip (if custom_commands.isEmpty then "none".data else custom_commands),
    review_comments := finalComments parsed.review_comments,
    checklist_scores := finalScores parsed.checklist_scores (truthyStr article_content)
      (finalComments parsed.review_comments),
    corrected_abstract := finalCorrected parsed.corrected_abstract original_abstract,
    improvement_summary := strip (if parsed.improvement_summary.isEmpty
      then default_improvement else parsed.improvement_summary) }

/-- A JSON parser that fails on every input: the behavior of `json.loads` on
any syntactically invalid document (it raises, modelled by `none`). -/
def jlNone : Str → Option Dict := fun _ => none

/-- Section segmentation following the spec words (section 4.1): the review
span ends at the nearest of the other headers, taking first occurrences
strictly after the review header, or at end-of-text when none follows.  This
definition is written from the spec, to be compared with the segmentation of
the code. -/
def spec_review_span (text : Str) : Str :=
  match findSub hREVIEW (upper text) with
  | none => []
  | some r =>
    pySlice text r
      ((([findSub hSCORES (upper text), findSub hCORRECTED (upper text),
          findSub hIMPROVEMENT (upper text)].filterMap id).filter
        (fun o => r < o)).foldl Nat.min text.length)

/-- A text in which the review and scores headers both occur, with one valid
bullet comment between them. -/
def tBoth : Str := "REVIEW COMMENTS\n- Add more methodology details.\nCHECKLIST SCORES".data

/-- A text with a review header and one valid bullet comment but no other
header at all. -/
def tC2in : Str := "REVIEW COMMENTS\n- This comment is long enough to keep.".data

/-- A text whose review section contains "photonics" on a non-bullet line,
plus two clean bullet comments, and an empty scores section. -/
def tC4in : Str :=
  ("REVIEW COMMENTS\nphotonics\n- This abstract reads clearly overall.\n"
    ++ "- The methods need more detail here.\nCHECKLIST SCORES\n"
    ++ "CORRECTED ABSTRACT\nIMPROVEMENT SUMMARY").data

/-- A text whose scores section holds an opening brace with no closing brace
(unbalanced structured data) and whose review comments mention photonics. -/
def tC6in : Str :=
  ("REVIEW COMMENTS\n- Mentions photonics rather than casting.\n"
    ++ "- Second comment is long enough.\nCHECKLIST SCORES\n\x7b \"length\": 80,\n"
    ++ "CORRECTED ABSTRACT\nIMPROVEMENT SUMMARY").data

/-- Like `tC6in` but with review comments free of off-topic keywords. -/
def tC6w : Str :=
  ("REVIEW COMMENTS\n- First remark is long enough here.\n"
    ++ "- Second remark has enough length.\nCHECKLIST SCORES\n\x7b \"length\": 80,\n"
    ++ "CORRECTED ABSTRACT\nIMPROVEMENT SUMMARY").data

/-- An agent-reported mapping holding all seven canonical keys plus an extra
non-canonical key. -/
def dAll8 : Dict :=
  [("length", JVal.num 80), ("keywords", JVal.num 80), ("gist", JVal.num 80),
   ("consistency", JVal.num 80), ("inclusion", JVal.num 80),
   ("checklist_completeness", JVal.num 80), ("conciseness", JVal.num 80),
   ("extra", JVal.num 5)]

/-- A parsed record carrying `dAll8` as its score mapping. -/
def pAll8 : Parsed :=
  { review_comments := [], checklist_scores := dAll8,
    corrected_abstract := [], improvement_summary := [] }

/-- The parsed record with every field empty. -/
def pEmpty : Parsed :=
  { review_comments := [], checklist_scores := [],
    corrected_abstract := [], improvement_summary := [] }

/-- A parsed record with a nonempty corrected-abstract candidate of fewer than
30 words. -/
def pShort : Parsed :=
  { review_comments := [], checklist_scores := [],
    corrected_abstract := "Too short.".data, improvement_summary := [] }

/-- A parsed record whose two review comments mention photonics. -/
def pPhot : Parsed :=
  { review_comments := ["Discusses photonics at great length.".data,
      "Second comment is long enough too.".data],
    checklist_scores := [], corrected_abstract := [], improvement_summary := [] }

/-- A short original abstract used as session context. -/
def oDummy : Str := "A dummy original abstract.".data

/-- A 30-word original abstract with a trailing space (so it differs from its
stripped form). -/
def o30 : Str := "w w w w w w w w w w w w w w w w w w w w w w w w w w w w w w ".data

/-- A line contributes a comment exactly when, after stripping, it carries a
bullet or numeric-list marker and the marker-stripped remainder is strictly
longer than 10 characters. -/
theorem commentOfLine_iff (raw c : Str) :
    commentOfLine raw = some c ↔
      (((bulletStart (strip raw) = true ∧ c = stripBullet (strip raw)) ∨
        (bulletStart (strip raw) = false ∧ numberedStart (strip raw) = true ∧
          c = stripNumber (strip raw))) ∧ 10 < c.length) := by
  have hne : ∀ l : Str, 10 < l.length → (!l.isEmpty && decide (10 < l.length)) = true := by
    intro l hl
    cases l with
    | nil => simp at hl
    | cons x xs => simp only [List.isEmpty_cons, Bool.not_false, Bool.true_and,
        decide_eq_true_eq]; exact hl
  have hne2 : ∀ l : Str, ¬ 10 < l.length → (!l.isEmpty && decide (10 < l.length)) = false := by
    intro l hl
    simp [hl]
  unfold commentOfLine
  by_cases hb : bulletStart (strip raw) = true
  · rw [if_pos hb]
    by_cases hlen : 10 < (stripBullet (strip raw)).length
    · rw [if_pos (hne _ hlen)]
      constructor
      · intro h
        rw [Option.some.injEq] at h
        exact ⟨Or.inl ⟨hb, h.symm⟩, h ▸ hlen⟩
      · rintro ⟨hor, hl⟩
        rcases hor with ⟨_, hc⟩ | ⟨hbf, _, _⟩
        · rw [hc]
        · rw [hb] at hbf; cases hbf
    · rw [if_neg (by rw [hne2 _ hlen]; simp)]
      constructor
      · intro h; cases h
      · rintro ⟨hor, hl⟩
        rcases hor with ⟨_, hc⟩ | ⟨hbf, _, _⟩
        · rw [hc] at hl; exact absurd hl hlen
        · rw [hb] at hbf; cases hbf
  · rw [if_neg hb]
    have hb' : bulletStart (strip raw) = false := by
      cases h : bulletStart (strip raw)
      · rfl
      · exact absurd h hb
    by_cases hn : numberedStart (strip raw) = true
    · rw [if_pos hn]
      by_cases hlen : 10 < (stripNumber (strip raw)).length
      · rw [if_pos (hne _ hlen)]
        constructor
        · intro h
          rw [Option.some.injEq] at h
          exact ⟨Or.inr ⟨hb', hn, h.symm⟩, h ▸ hlen⟩
        · rintro ⟨hor, hl⟩
          rcases hor with ⟨hbt, _⟩ | ⟨_, _, hc⟩
          · rw [hbt] at hb'; cases hb'
          · rw [hc]
      · rw [if_neg (by rw [hne2 _ hlen]; simp)]
        constructor
        · intro h; cases h
        · rintro ⟨hor, hl⟩
          rcases hor with ⟨hbt, _⟩ | ⟨_, _, hc⟩
          · rw [hbt] at hb'; cases hb'
          · rw [hc] at hl; exact absurd hl hlen
    · rw [if_neg hn]
      constructor
      · intro h; cases h
      · rintro ⟨hor, _⟩
        rcases hor with ⟨hbt, _⟩ | ⟨_, hnt, _⟩
        · rw [hbt] at hb'; cases hb'
        · exact absurd hnt hn

/-- Every extracted review comment is strictly longer than 10 characters. -/
theorem extractComments_length {t c : Str} (h : c ∈ extractComments t) :
    10 < c.length := by
  unfold extractComments at h
  rcases List.mem_filterMap.mp h with ⟨raw, _, hr⟩
  exact ((commentOfLine_iff raw c).mp hr).2

/-- C7 (amended): within the review span, a line is kept as a review comment
if and only if, after stripping, it starts with a bullet marker or a
numeric-list marker and the remainder after marker stripping is strictly
longer than 10 characters (so lines of exactly 10 characters after stripping
are also discarded); extraction walks the lines in order, and an empty or
absent span has no lines and yields no comments. -/
theorem C7_line_kept_iff (t c : Str) :
    c ∈ extractComments t ↔
      ∃ raw, raw ∈ splitOnChar '\n' t ∧
        (((bulletStart (strip raw) = true ∧ c = stripBullet (strip raw)) ∨
          (bulletStart (strip raw) = false ∧ numberedStart (strip raw) = true ∧
            c = stripNumber (strip raw))) ∧ 10 < c.length) := by
  unfold extractComments
  rw [List.mem_filterMap]
  constructor
  · rintro ⟨raw, hm, hr⟩
    exact ⟨raw, hm, (commentOfLine_iff raw c).mp hr⟩
  · rintro ⟨raw, hm, hr⟩
    exact ⟨raw, hm, (commentOfLine_iff raw c).mpr hr⟩

/-- C7 counterexample: a bullet line whose remainder after marker stripping
has exactly 10 characters; the claim ("lines shorter than 10 characters after
stripping are discarded") keeps it, the code discards it. -/
theorem C7_cex :
    (stripBullet (strip "- abcdefghij".data)).length = 10 ∧
    extractComments "- abcdefghij".data = [] := by decide

/-- C9: `parse_assistant_output` is total (so, no exception) and by the shape
of `Parsed` always yields exactly the four fields review_comments,
checklist_scores, corrected_abstract and improvement_summary, the last two
possibly empty strings and the scores the JSON parse result or empty; every
review comment in the record is strictly longer than 10 characters. -/
theorem C9_comment_lengths (jloads : Str → Option Dict) (text : Str) :
    ∀ c ∈ (parse_assistant_output jloads text).review_comments, 10 < c.length := by
  intro c hc
  have hc' : c ∈ parseReviewComments text := hc
  unfold parseReviewComments at hc'
  split at hc'
  · exact extractComments_length hc'
  · simp at hc'

/-- Witness for C9 at a concrete input. -/
theorem C9_comment_lengths_witness :
    "Add more methodology details.".data ∈
      (parse_assistant_output jlNone tBoth).review_comments ∧
    10 < ("Add more methodology details.".data).length :=
  ⟨by decide, C9_comment_lengths jlNone tBoth "Add more methodology details.".data (by decide)⟩

/-- C3: the review-comment list of every final record has between 2 and 10
entries: fewer than 2 surviving cleaned comments trigger the all-or-nothing
fallback substitution, otherwise the cleaned list is truncated to the cap of
10 preserving order. -/
theorem C3_comment_count (p : Parsed) (a c : Str) (art : Option Str) :
    (2 ≤ (validate_and_fill p a c art).review_comments.length ∧
      (validate_and_fill p a c art).review_comments.length ≤ 10) ∧
    ((cleanComments p.review_comments).length < 2 →
      (validate_and_fill p a c art).review_comments = FALLBACK_REVIEW) ∧
    (2 ≤ (cleanComments p.review_comments).length →
      (validate_and_fill p a c art).review_comments
        = (cleanComments p.review_comments).take 10) := by
  have hrc : (validate_and_fill p a c art).review_comments
      = finalComments p.review_comments := rfl
  rw [hrc]
  unfold finalComments
  by_cases h : (cleanComments p.review_comments).length < 2
  · rw [if_pos h]
    exact ⟨⟨by decide, by decide⟩, fun _ => rfl, fun h2 => absurd h2 (by omega)⟩
  · rw [if_neg h]
    refine ⟨⟨?_, ?_⟩, fun hlt => absurd hlt h, fun _ => rfl⟩
    · rw [List.length_take]; omega
    · rw [List.length_take]; omega

/-- Witness for C3 at a concrete input (the fallback branch). -/
theorem C3_comment_count_witness :
    (validate_and_fill pEmpty oDummy [] none).review_comments = FALLBACK_REVIEW :=
  (C3_comment_count pEmpty oDummy [] none).2.1 (by decide)

/-- C8: the segmenter, extractor and normalizer are pure functions of the raw
text, the JSON parser and the session context, so running the pipeline twice
on identical inputs yields identical canonical records. -/
theorem C8_deterministic (jloads : Str → Option Dict) (text a c : Str)
    (art : Option Str) :
    validate_and_fill (parse_assistant_output jloads text) a c art =
      validate_and_fill (parse_assistant_output jloads text) a c art := rfl

/-- Assigning an existing key leaves the key list of a dict unchanged. -/
theorem dictSet_map_fst (d : Dict) (k : String) (v : JVal)
    (h : dictContains d k = true) :
    (dictSet d k v).map Prod.fst = d.map Prod.fst := by
  induction d with
  | nil => simp [dictContains] at h
  | cons p t ih =>
    unfold dictSet
    by_cases hp : (p.1 == k) = true
    · rw [if_pos hp]
      simp only [List.map_cons]
      rw [(beq_iff_eq.mp hp)]
    · rw [if_neg hp]
      simp only [List.map_cons]
      unfold dictContains at h
      rw [List.any_cons] at h
      rcases Bool.or_eq_true_iff.mp h with h1 | h2
      · exact absurd h1 hp
      · rw [ih h2]

/-- Looking up the assigned key after a dict assignment yields the assigned
value. -/
theorem dictGet_dictSet (d : Dict) (k : String) (v : JVal) :
    dictGet (dictSet d k v) k = some v := by
  induction d with
  | nil => simp [dictSet, dictGet, List.find?]
  | cons p t ih =>
    unfold dictSet
    by_cases hp : (p.1 == k) = true
    · rw [if_pos hp]
      simp [dictGet, List.find?]
    · rw [if_neg hp]
      have hp2 : (p.1 == k) = false := by
        cases hq : (p.1 == k)
        · rfl
        · exact absurd hq hp
      unfold dictGet at ih ⊢
      simp only [List.find?, hp2]
      exact ih

/-- The key list of the reconciled mapping is the canonical category list. -/
theorem map_fst_reconciled (agent : Dict) (article : Bool) :
    (expected_categories.map (fun c => (c, reconcileOne agent article c))).map
        Prod.fst = expected_categories := by
  rw [List.map_map]
  exact List.map_id _

/-- A mapping built by pairing each key of a list with a value contains every
key of the list. -/
theorem dictContains_map_pair (l : List String) (f : String → JVal) (k : String)
    (h : k ∈ l) :
    dictContains (l.map (fun c => (c, f c))) k = true := by
  induction l with
  | nil => cases h
  | cons x xs ih =>
    unfold dictContains at ih ⊢
    simp only [List.map_cons, List.any_cons]
    rcases List.mem_cons.mp h with h1 | h2
    · subst h1
      simp
    · rw [ih h2]
      simp

/-- The reconciled mapping contains the consistency key. -/
theorem contains_consistency_reconciled (agent : Dict) (article : Bool) :
    dictContains (expected_categories.map (fun c => (c, reconcileOne agent article c)))
      "consistency" = true :=
  dictContains_map_pair expected_categories _ "consistency" (by decide)

/-- C1 (amended): whenever the agent-reported mapping does not already contain
all seven canonical categories, the final record's score mapping has exactly
the seven canonical keys in order; when the agent mapping does contain all
seven, it is passed through (subject only to the consistency override) and may
retain extra keys and non-numeric values. -/
theorem C1_keys_when_reconciled (p : Parsed) (a c : Str) (art : Option Str)
    (h : expected_categories.all
      (fun k => dictContains p.checklist_scores k) = false) :
    (validate_and_fill p a c art).checklist_scores.map Prod.fst
      = expected_categories := by
  have hs : (validate_and_fill p a c art).checklist_scores
      = finalScores p.checklist_scores (truthyStr art)
          (finalComments p.review_comments) := rfl
  rw [hs]
  unfold finalScores reconcileScores
  rw [h]
  simp only [Bool.false_eq_true, if_false]
  split
  · rw [dictSet_map_fst _ _ _ (contains_consistency_reconciled _ _)]
    exact map_fst_reconciled _ _
  · exact map_fst_reconciled _ _

/-- Witness for the amended C1 at a concrete input. -/
theorem C1_keys_when_reconciled_witness :
    (validate_and_fill pEmpty oDummy [] none).checklist_scores.map Prod.fst
      = expected_categories :=
  C1_keys_when_reconciled pEmpty oDummy [] none (by decide)

/-- C1 counterexample: when the agent mapping holds all seven canonical keys
plus the non-canonical key "extra", `validate_and_fill` passes it through, so
the final key set is not exactly the seven canonical categories. -/
theorem C1_cex :
    dictContains (validate_and_fill pAll8 oDummy [] none).checklist_scores
        "extra" = true ∧
    expected_categories.contains "extra" = false := by decide

/-- C10: when the parsed mapping already contains all seven canonical keys and
the off-topic scan over the record's (cleaned or fallback) review comments
finds no keyword, the mapping is passed through completely unchanged — extra
non-canonical keys and original, possibly non-numeric, values included. -/
theorem C10_passthrough (p : Parsed) (a c : Str) (art : Option Str)
    (hall : expected_categories.all
      (fun k => dictContains p.checklist_scores k) = true)
    (hot : offTopicTriggered (finalComments p.review_comments) = false) :
    (validate_and_fill p a c art).checklist_scores = p.checklist_scores := by
  have hs : (validate_and_fill p a c art).checklist_scores
      = finalScores p.checklist_scores (truthyStr art)
          (finalComments p.review_comments) := rfl
  rw [hs]
  unfold finalScores
  rw [hot]
  simp only [Bool.false_eq_true, if_false]
  unfold reconcileScores
  rw [hall]
  simp

/-- Witness for C10 at a concrete input. -/
theorem C10_passthrough_witness :
    (validate_and_fill pAll8 oDummy [] none).checklist_scores = dAll8 :=
  C10_passthrough pAll8 oDummy [] none (by decide) (by decide)

/-- C4 (amended): the off-topic veto fires on the cleaned comment list of the
final record — if the joined lower-cased final comments contain any configured
keyword, the final consistency score is 0; a keyword occurring in the raw
review section but not surviving into the cleaned comments does not trigger
the veto. -/
theorem C4_offtopic_forces_zero (p : Parsed) (a c : Str) (art : Option Str)
    (h : offTopicTriggered (finalComments p.review_comments) = true) :
    dictGet (validate_and_fill p a c art).checklist_scores "consistency"
      = some (JVal.num 0) := by
  have hs : (validate_and_fill p a c art).checklist_scores
      = finalScores p.checklist_scores (truthyStr art)
          (finalComments p.review_comments) := rfl
  rw [hs]
  unfold finalScores
  rw [h]
  simp only [if_true]
  exact dictGet_dictSet _ _ _

/-- Witness for the amended C4 at a concrete input. -/
theorem C4_offtopic_forces_zero_witness :
    dictGet (validate_and_fill pPhot oDummy [] none).checklist_scores
        "consistency" = some (JVal.num 0) :=
  C4_offtopic_forces_zero pPhot oDummy [] none (by decide)

/-- C4 counterexample: in `tC4in` the substring "photonics" occurs inside the
review-comments section (the text between the review and scores headers), yet
the pipeline's final consistency score is the no-article default 75 rather
than 0, because the keyword sits on a non-bullet line and never reaches the
cleaned comment list. -/
theorem C4_cex :
    findSub hREVIEW (upper tC4in) = some 0 ∧
    findSub hSCORES (upper tC4in) = some 102 ∧
    containsSub "photonics".data (pySlice tC4in 0 102) = true ∧
    dictGet (validate_and_fill (parse_assistant_output jlNone tC4in) oDummy []
        none).checklist_scores "consistency" = some (JVal.num 75) := by decide

/-- Splitting an all-whitespace suffix yields at most the pending word. -/
theorem pySplitAux_allSpace (acc sp : Str) (h : ∀ c ∈ sp, isSpace c = true) :
    pySplitAux acc sp = if acc.isEmpty then [] else [acc.reverse] := by
  induction sp generalizing acc with
  | nil => rfl
  | cons c t ih =>
    have hc : isSpace c = true := h c (List.mem_cons_self c t)
    unfold pySplitAux
    rw [hc]
    simp only [if_true]
    by_cases ha : acc.isEmpty = true
    · rw [if_pos ha, if_pos ha,
        ih [] (fun x hx => h x (List.mem_cons_of_mem _ hx))]
      rfl
    · rw [if_neg ha, if_neg ha,
        ih [] (fun x hx => h x (List.mem_cons_of_mem _ hx))]
      rfl

/-- Trailing whitespace does not change the word split. -/
theorem pySplitAux_append_spaces (s sp : Str) (h : ∀ c ∈ sp, isSpace c = true) :
    ∀ acc, pySplitAux acc (s ++ sp) = pySplitAux acc s := by
  induction s with
  | nil =>
    intro acc
    rw [List.nil_append, pySplitAux_allSpace acc sp h]
    rfl
  | cons c t ih =>
    intro acc
    rw [List.cons_append]
    unfold pySplitAux
    by_cases hc : isSpace c = true
    · rw [hc]
      simp only [if_true]
      by_cases ha : acc.isEmpty = true
      · rw [if_pos ha, if_pos ha, ih []]
      · rw [if_neg ha, if_neg ha, ih []]
    · have hc2 : isSpace c = false := by
        cases hq : isSpace c
        · rfl
        · exact absurd hq hc
      rw [hc2]
      simp only [Bool.false_eq_true, if_false]
      exact ih (c :: acc)

/-- Leading whitespace does not change the word split. -/
theorem pySplitAux_dropWhile (s : Str) :
    pySplitAux [] (s.dropWhile isSpace) = pySplitAux [] s := by
  induction s with
  | nil => rfl
  | cons c t ih =>
    rw [List.dropWhile_cons]
    by_cases hc : isSpace c = true
    · rw [if_pos hc, ih]
      conv_rhs => unfold pySplitAux
      rw [hc]
      rfl
    · rw [if_neg hc]

/-- Right-stripping decomposes a string into its stripped part and an
all-whitespace tail. -/
theorem rstrip_decomp (s : Str) :
    rstrip s ++ (s.reverse.takeWhile isSpace).reverse = s := by
  unfold rstrip
  rw [← List.reverse_append, List.takeWhile_append_dropWhile, List.reverse_reverse]

/-- The characters of the tail removed by right-stripping are whitespace. -/
theorem mem_rstrip_tail_space (s : Str) :
    ∀ c ∈ (s.reverse.takeWhile isSpace).reverse, isSpace c = true := by
  intro c hc
  rw [List.mem_reverse] at hc
  exact List.mem_takeWhile_imp hc

/-- Stripping does not change the word split (and so not the word count). -/
theorem pySplit_strip (s : Str) : pySplit (strip s) = pySplit s := by
  unfold strip pySplit
  have h1 : pySplitAux [] (rstrip (lstrip s)) = pySplitAux [] (lstrip s) := by
    conv_rhs => rw [← rstrip_decomp (lstrip s)]
    rw [pySplitAux_append_spaces _ _ (mem_rstrip_tail_space (lstrip s))]
  rw [h1]
  exact pySplitAux_dropWhile s

/-- C5 (amended): a nonempty corrected-abstract candidate of fewer than 30
words always makes the final corrected abstract the original abstract
verbatim; an absent (empty) candidate is first replaced by the stripped
original, which is kept whenever it has at least 30 words. -/
theorem C5_short_candidate (p : Parsed) (a c : Str) (art : Option Str)
    (hne : p.corrected_abstract.isEmpty = false)
    (hlt : (pySplit p.corrected_abstract).length < 30) :
    (validate_and_fill p a c art).corrected_abstract = a := by
  have hs : (validate_and_fill p a c art).corrected_abstract
      = finalCorrected p.corrected_abstract a := rfl
  rw [hs]
  unfold finalCorrected
  rw [hne]
  simp only [Bool.false_eq_true, if_false]
  rw [pySplit_strip]
  rw [if_pos hlt]

/-- Witness for the amended C5 at a concrete input. -/
theorem C5_short_candidate_witness :
    (validate_and_fill pShort oDummy [] none).corrected_abstract = oDummy :=
  C5_short_candidate pShort oDummy [] none (by decide) (by decide)

/-- C5 counterexample: with an absent (empty-string) corrected-abstract
candidate — fewer than 30 words — and a 30-word original carrying a trailing
space, the final corrected abstract is the stripped original, which differs
from the original verbatim. -/
theorem C5_cex :
    (pySplit pEmpty.corrected_abstract).length < 30 ∧
    (validate_and_fill pEmpty o30 [] none).corrected_abstract ≠ o30 := by decide

/-- Reconciling an empty agent mapping yields the per-category defaults. -/
theorem reconcileScores_nil (article : Bool) :
    reconcileScores [] article
      = expected_categories.map (fun k => (k, JVal.num (defaults article k))) := by
  cases article <;> rfl

/-- C6 (amended): when extraction leaves the score field empty (in particular
after any syntactically invalid structured data, where `jloads` returns
`none`, or when no brace-delimited range exists — extraction being total,
nothing is raised) and the final comments trigger no off-topic keyword, the
final scores are exactly the complete built-in default mapping over the seven
canonical categories; a triggered off-topic veto additionally forces the
consistency entry to 0. -/
theorem C6_empty_scores_defaults (jloads : Str → Option Dict) (t a c : Str)
    (art : Option Str)
    (hp : (parse_assistant_output jloads t).checklist_scores = [])
    (hot : offTopicTriggered
      (finalComments (parse_assistant_output jloads t).review_comments) = false) :
    (validate_and_fill (parse_assistant_output jloads t) a c art).checklist_scores
      = expected_categories.map
          (fun k => (k, JVal.num (defaults (truthyStr art) k))) := by
  have hs : (validate_and_fill (parse_assistant_output jloads t) a c art).checklist_scores
      = finalScores (parse_assistant_output jloads t).checklist_scores (truthyStr art)
          (finalComments (parse_assistant_output jloads t).review_comments) := rfl
  rw [hs, hp]
  unfold finalScores
  rw [hot]
  simp only [Bool.false_eq_true, if_false]
  exact reconcileScores_nil _

/-- Witness for the amended C6 at a concrete input whose scores section holds
an unbalanced brace. -/
theorem C6_empty_scores_defaults_witness :
    (validate_and_fill (parse_assistant_output jlNone tC6w) oDummy []
        none).checklist_scores
      = expected_categories.map
          (fun k => (k, JVal.num (defaults (truthyStr none) k))) :=
  C6_empty_scores_defaults jlNone tC6w oDummy [] none (by decide) (by decide)

/-- C6 counterexample: the scores section of `tC6in` has an opening brace and
no closing brace, so extraction leaves the field empty; but the review
comments mention "photonics", so the off-topic veto forces the final
consistency score to 0 while the built-in default for consistency without an
article is 75 — the final mapping is not the complete default mapping. -/
theorem C6_cex :
    (parse_assistant_output jlNone tC6in).checklist_scores = [] ∧
    dictGet (validate_and_fill (parse_assistant_output jlNone tC6in) oDummy []
        none).checklist_scores "consistency" = some (JVal.num 0) ∧
    defaults false "consistency" = 75 := by decide

/-- C2 (amended): the code derives section boundaries from a hardcoded header
sequence rather than nearest-following-match: review comments are extracted
exactly when both the review and the scores headers occur, always from the
slice between their first occurrences — never bounded by the corrected or
summary headers, and empty whenever the scores header is missing. -/
theorem C2_code_boundaries (jloads : Str → Option Dict) (t : Str) :
    (findSub hSCORES (upper t) = none →
      (parse_assistant_output jloads t).review_comments = []) ∧
    (∀ r sc, findSub hREVIEW (upper t) = some r →
      findSub hSCORES (upper t) = some sc →
      (parse_assistant_output jloads t).review_comments
        = extractComments (pySlice t r sc)) := by
  constructor
  · intro h
    have hx : (parse_assistant_output jloads t).review_comments
        = parseReviewComments t := rfl
    rw [hx]
    unfold parseReviewComments
    rw [h]
    cases findSub hREVIEW (upper t) <;> rfl
  · intro r sc hr hsc
    have hx : (parse_assistant_output jloads t).review_comments
        = parseReviewComments t := rfl
    rw [hx]
    unfold parseReviewComments
    rw [hr, hsc]

/-- Witness for the amended C2 at a concrete input with both headers. -/
theorem C2_code_boundaries_witness :
    (parse_assistant_output jlNone tBoth).review_comments
      = extractComments (pySlice tBoth 0 48) :=
  (C2_code_boundaries jlNone tBoth).2 0 48 (by decide) (by decide)

/-- C2 counterexample: in `tC2in` the review header occurs and no other header
follows it, so the nearest-following-match span of the claim runs to
end-of-text and contains one valid bullet comment; the code, which hardcodes
the scores header as the review boundary, extracts nothing. -/
theorem C2_cex :
    extractComments (spec_review_span tC2in)
      = ["This comment is long enough to keep.".data] ∧
    (parse_assistant_output jlNone tC2in).review_comments = [] := by decide
